import Mathlib

/-!
Verification of the smart-tourist-guide trip-planning application.

The development shallowly embeds the core operations of the repository:

* the Gemini response validation of `getGeminiSuggestions`
  (src/app/plan-trip/page.tsx),
* the conversational refinement step `handleChatSubmit`
  (src/app/plan-trip/page.tsx),
* the day-bucketing allocator `getPlacesByDay`
  (src/app/trip/[tripId]/page.tsx),
* the per-place update `updatePlaceInSupabase` and the displayed-place
  index recomputation (src/app/trip/[tripId]/page.tsx),
* the map assembler `addMarkersAndRoute` with `geocodeAddress` and
  `getDirections` (src/app/view-map/page.tsx).

Stateful React code is modelled by explicit state passing: network calls
are oracles passed as function arguments, and the pieces of React state a
function writes (chat history, persisted place list, markers, route,
accumulated map-error text) are returned as explicit values.  JSON objects
whose optional fields may be absent are modelled with `Option` fields;
JavaScript sparse-array writes are modelled at the level of their JSON
serialization (holes become `none`/null).
-/

set_option linter.unusedVariables false

namespace TouristGuide

/-! ## Data model -/

/-- A suggested place as stored in the `suggested_places` jsonb column.
`time_to_visit`, `notes` and `visited` are optional JSON fields; `none`
models an absent key (src/app/trip/[tripId]/page.tsx lines 10-15 and
src/app/plan-trip/page.tsx lines 49-53). -/
structure SuggestedPlace where
  name : String
  description : String
  time_to_visit : Option String := none
  notes : Option String := none
  visited : Option Bool := none
deriving DecidableEq, Repr

/-- A place as produced by the suggestion engine after validation: the
three string fields checked at src/app/plan-trip/page.tsx lines 393-405. -/
structure EnginePlace where
  name : String
  description : String
  time_to_visit : String
deriving DecidableEq, Repr

/-- Writing an engine-produced place into the `suggested_places` column:
the raw object has exactly the three generated fields, so the `notes` and
`visited` keys are absent in the stored JSON. -/
def EnginePlace.toStored (p : EnginePlace) : SuggestedPlace :=
  { name := p.name, description := p.description,
    time_to_visit := some p.time_to_visit, notes := none, visited := none }

/-! ## Gemini response validation (src/app/plan-trip/page.tsx lines 389-417) -/

/-- Minimal model of a parsed JSON value. -/
inductive Json where
  | null : Json
  | bool : Bool → Json
  | num : Int → Json
  | str : String → Json
  | arr : List Json → Json
  | obj : List (String × Json) → Json

/-- JavaScript own-property lookup on a parsed JSON value.  `JSON.parse`
keeps the last occurrence of a duplicated key; values that are not plain
objects have none of the looked-up properties. -/
def Json.getProp : Json → String → Option Json
  | .obj fields, k =>
      fields.foldl (fun acc f => if f.1 = k then some f.2 else acc) none
  | _, _ => none

/-- Property lookup that also checks `typeof value === "string"`. -/
def Json.getStr (j : Json) (k : String) : Option String :=
  match j.getProp k with
  | some (.str s) => some s
  | _ => none

/-- The per-element check at src/app/plan-trip/page.tsx lines 396-405:
`typeof item === "object" && item !== null && "name" in item && typeof
item.name === "string" && ...` for the three fields.  In JavaScript an
array also has `typeof` "object" but has no `name`/`description`/
`time_to_visit` own property, so exactly the objects carrying the three
string-valued keys pass. -/
def isPlaceItem (j : Json) : Bool :=
  (j.getStr "name").isSome && (j.getStr "description").isSome &&
    (j.getStr "time_to_visit").isSome

/-- The typed reading of an element that passed `isPlaceItem` (the source
returns the parsed items themselves; the `getD` defaults are never hit on
a validated item). -/
def extractPlace (j : Json) : EnginePlace :=
  { name := (j.getStr "name").getD ""
    description := (j.getStr "description").getD ""
    time_to_visit := (j.getStr "time_to_visit").getD "" }

/-- Error thrown at src/app/plan-trip/page.tsx line 410. -/
def malformedPlanMessage : String :=
  "AI generated an unparseable plan. Expected array of objects with name, description, and time_to_visit."

/-- Error thrown at src/app/plan-trip/page.tsx line 416 when `JSON.parse`
fails (the raw suffix of the message is dynamic and elided). -/
def parseFailureMessage : String :=
  "Failed to parse Gemini API response."

/-- The response validation of `getGeminiSuggestions`
(src/app/plan-trip/page.tsx lines 389-417).  `none` models a response
body on which `JSON.parse` threw; a parsed non-array or an array with any
element failing `isPlaceItem` is rejected wholesale. -/
def validateSuggestions : Option Json → Except String (List EnginePlace)
  | none => .error parseFailureMessage
  | some (.arr items) =>
      if items.all isPlaceItem then .ok (items.map extractPlace)
      else .error malformedPlanMessage
  | some _ => .error malformedPlanMessage

/-! ## Conversational refinement (src/app/plan-trip/page.tsx lines 561-645) -/

/-- One chat turn.  In the source each history entry is
`{role, parts: [{text}]}` with a single part. -/
structure ChatTurn where
  role : String
  text : String
deriving DecidableEq, Repr

/-- Assistant turn appended after a persisted refinement (line 623). -/
def refineOkMessage : String :=
  "Okay, I&apos;ve refined the plan. Please check the updated \"Current Itinerary\" above. What else would you like to change?"

/-- Assistant turn appended when the Supabase update fails (line 613). -/
def saveFailMessage (err : String) : String :=
  "Failed to save refined suggestions: " ++ err

/-- Assistant turn appended by the catch block (line 640). -/
def chatErrorMessage (err : String) : String :=
  "An error occurred: " ++ err ++ ". Please try again."

/-- Persisting a successful refinement (lines 602-607): the trip record's
`suggested_places` column is overwritten with `refinedSuggestions` — the
engine output itself; the stored list is not read during the write. -/
def persistRefinement (stored : List SuggestedPlace)
    (refined : List EnginePlace) : List SuggestedPlace :=
  refined.map EnginePlace.toStored

/-- One conversational refinement cycle, `handleChatSubmit`
(src/app/plan-trip/page.tsx lines 561-645), as a state transformer on
(chat history, persisted place list).  `outcome` is the combined result
of the context fetch and the `getGeminiSuggestions` call inside the `try`
block (`Except.error` = a thrown error, caught at line 636);
`persistError` is the error of the Supabase update, `none` on success. -/
def handleChatSubmit (history : List ChatTurn) (stored : List SuggestedPlace)
    (chatInput : String) (outcome : Except String (List EnginePlace))
    (persistError : Option String) : List ChatTurn × List SuggestedPlace :=
  let newChatHistory := history ++ [⟨"user", chatInput⟩]
  match outcome with
  | .ok refined =>
      match persistError with
      | none =>
          (newChatHistory ++ [⟨"model", refineOkMessage⟩],
            persistRefinement stored refined)
      | some e => (newChatHistory ++ [⟨"model", saveFailMessage e⟩], stored)
  | .error e => (newChatHistory ++ [⟨"model", chatErrorMessage e⟩], stored)

/-! ## Day-bucketing allocator (src/app/trip/[tripId]/page.tsx lines 289-308)

```
const getPlacesByDay = (places, duration) => {
  const dailyItinerary = Array.from({ length: duration }, () => [])
  if (places.length === 0) return dailyItinerary
  const placesPerDay = Math.ceil(places.length / duration)
  let placeIndex = 0
  for (let day = 0; day < duration; day++) {
    for (let i = 0; i < placesPerDay; i++) {
      if (placeIndex < places.length) {
        dailyItinerary[day].push(places[placeIndex]); placeIndex++
      } else break
    }
  }
  return dailyItinerary
}
```
The inner loop pushes `places[placeIndex ..]` for up to `placesPerDay`
entries and leaves `placeIndex = min (placeIndex + placesPerDay)
places.length`; `fillLoop` runs the outer loop with the day counter and
`placeIndex` explicit. -/

def fillLoop (places : List α) (perDay : Nat) : Nat → Nat → List (List α)
  | 0, _ => []
  | d + 1, idx =>
      (places.drop idx).take perDay ::
        fillLoop places perDay d (min (idx + perDay) places.length)

/-- The allocator itself.  `Math.ceil (places.length / duration)` on the
natural inputs of the page equals `(places.length + duration - 1) / duration`. -/
def getPlacesByDay (places : List α) (duration : Nat) : List (List α) :=
  if places.length = 0 then List.replicate duration []
  else fillLoop places ((places.length + duration - 1) / duration) duration 0

/-- The page reads `duration` from the trip record as a JavaScript number;
`Array.from \x7blength: d\x7d` yields an empty array for every `d ≤ 0`
and the `for` loops do not run, so a nonpositive duration behaves exactly
like duration `0`. -/
def getPlacesByDayInt (places : List α) (duration : Int) : List (List α) :=
  getPlacesByDay places duration.toNat

/-- `getPlacesByDay` contains no validity check and no throw: every call
returns a plain array.  The `Except` view makes "the call fails" from the
specification statable: a run of the source function is always
`Except.ok`. -/
def getPlacesByDayRun (places : List α) (duration : Int) :
    Except String (List (List α)) :=
  Except.ok (getPlacesByDayInt places duration)

/-! ## Per-place annotation update (src/app/trip/[tripId]/page.tsx) -/

/-- JavaScript `arr[i] = x` on a copied array, observed through the JSON
serialization that is written back to the `suggested_places` column: an
in-range index replaces the element; an index past the end extends the
array, and the holes serialize as null (`none`). -/
def jsArrayWrite (l : List α) (i : Nat) (x : α) : List (Option α) :=
  if i < l.length then (l.map some).set i (some x)
  else l.map some ++ List.replicate (i - l.length) none ++ [some x]

/-- `updatePlaceInSupabase` (src/app/trip/[tripId]/page.tsx lines 142-174):
`newSuggestedPlaces = [...trip.suggested_places];
newSuggestedPlaces[index] = updatedPlace` and the resulting array is
written back whole.  A negative index creates a non-index property that
the JSON serialization ignores, leaving the stored array unchanged. -/
def updatePlaceInSupabase (places : List SuggestedPlace)
    (updatedPlace : SuggestedPlace) (index : Int) :
    List (Option SuggestedPlace) :=
  if index < 0 then places.map some
  else jsArrayWrite places index.toNat updatedPlace

/-- `updatePlaceInSupabase` performs no index-validity check and throws
nothing tied to the index; the `Except` view of one call (network failure
aside, which is independent of the index) is always `Except.ok`. -/
def updatePlaceRun (places : List SuggestedPlace)
    (updatedPlace : SuggestedPlace) (index : Int) :
    Except String (List (Option SuggestedPlace)) :=
  Except.ok (updatePlaceInSupabase places updatedPlace index)

/-- The index recomputation for a displayed place
(src/app/trip/[tripId]/page.tsx lines 555-559): `findIndex` over the full
list matching on name and description; `-1` when absent. -/
def findOriginalIndex (places : List SuggestedPlace)
    (displayed : SuggestedPlace) : Int :=
  match places.findIdx?
      (fun p => p.name == displayed.name && p.description == displayed.description) with
  | some i => (i : Int)
  | none => -1

/-- `handleVisitedToggle` for a displayed place (lines 197-202, with the
index recomputed at lines 555-559): flips `visited` of the place at the
recomputed index (JavaScript `!undefined` is `true`) and writes the list
back.  On the not-found index `-1` the JavaScript code builds a
degenerate update that the JSON write ignores, so the stored list is
unchanged; the dead `none` arm mirrors that `findIndex` results are
always in range. -/
def toggleDisplayedPlace (places : List SuggestedPlace)
    (displayed : SuggestedPlace) : List (Option SuggestedPlace) :=
  let index := findOriginalIndex places displayed
  if index < 0 then places.map some
  else
    match places[index.toNat]? with
    | some old =>
        updatePlaceInSupabase places
          { old with visited := some (!(old.visited.getD false)) } index
    | none => places.map some

/-- `handleSaveNote` (lines 182-189, same recomputed index): writes the
edited note into the place at the recomputed index. -/
def saveNoteDisplayedPlace (places : List SuggestedPlace)
    (displayed : SuggestedPlace) (currentNote : String) :
    List (Option SuggestedPlace) :=
  let index := findOriginalIndex places displayed
  if index < 0 then places.map some
  else
    match places[index.toNat]? with
    | some old =>
        updatePlaceInSupabase places { old with notes := some currentNote } index
    | none => places.map some

/-! ## Geocode-and-route assembler (src/app/view-map/page.tsx) -/

/-- Outcome of one Nominatim geocoding call for one address
(src/app/view-map/page.tsx lines 229-253): `found` = a best-match
coordinate pair (latitude, longitude); `notFound` = HTTP 200 with an
empty result list (the function only logs a console warning and returns
null); `failed` = a non-2xx response or a thrown fetch error (the catch
block appends a warning to the accumulated map-error text and returns
null). -/
inductive GeoResult (α : Type) where
  | found : α × α → GeoResult α
  | notFound : GeoResult α
  | failed : String → GeoResult α
deriving DecidableEq, Repr

/-- Warning appended by the catch block of `geocodeAddress` (line 248). -/
def geoWarnMessage (address : String) : String :=
  "Could not find location for \"" ++ address ++ "\". Try a more general name or verify spelling."

/-- Fatal message set at line 352 when the destination does not geocode. -/
def destinationFailMessage : String :=
  "Could not find coordinates for the main destination. Map cannot be displayed."

/-- Message set (replacing the accumulated text) at line 273 when the ORS
API key is absent. -/
def orsKeyMissingMessage : String :=
  "Map directions are unavailable: ORS API Key is not configured."

/-- Message appended at lines 378-381 when no coordinate resolved. -/
def noLocationsMessage : String :=
  "No valid locations found to display on the map."

/-- A map marker: geocoded position plus popup HTML (lines 51-54). -/
structure MapMarker (α : Type) where
  position : α × α
  popupContent : String
deriving DecidableEq, Repr

def startPopup (startingPoint : String) : String :=
  "<b>Starting Point:</b> " ++ startingPoint

def destPopup (destination : String) : String :=
  "<b>Destination:</b> " ++ destination

def placePopup (place : SuggestedPlace) : String :=
  "<b>" ++ place.name ++ "</b><br>" ++ place.description

/-- The geocoding query for a suggested place (line 359): the destination
string is appended to sharpen the search. -/
def placeQuery (place : SuggestedPlace) (destination : String) : String :=
  place.name ++ ", " ++ destination

/-- `geocodeAddress` as seen by its caller: the resolved coordinate (if
any) and the warning it appends to the accumulated map-error text. -/
def geocodeAddress (geo : String → GeoResult α) (address : String) :
    Option (α × α) × List String :=
  match geo address with
  | .found c => (some c, [])
  | .notFound => (none, [])
  | .failed _ => (none, [geoWarnMessage address])

/-- The trip fields the map page reads. -/
structure TripRecord where
  starting_point : String
  destination : String
  suggested_places : List SuggestedPlace
  preferred_travel_mode : Option String
deriving DecidableEq, Repr

/-- `getOrsProfile` (src/app/view-map/page.tsx lines 256-267): the
travel-mode-to-profile mapping; public transport falls back to the
driving profile. -/
def getOrsProfile : Option String → String
  | some "car" => "driving-car"
  | some "walk" => "walking"
  | some "public_transport" => "driving-car"
  | _ => "driving-car"

/-- `getDirections` (src/app/view-map/page.tsx lines 270-318).  `ors` is
the OpenRouteService POST: it receives the travel profile and the
coordinate payload of the request body and yields the first route's raw
geometry — in the service's (longitude, latitude) axis order — or `none`
on a non-2xx response, a thrown error, or missing geometry.  The result
is (the swapped-back route if any, the payload actually sent, whether
the missing-key branch replaced the map-error text). -/
def getDirections (hasOrsKey : Bool)
    (ors : String → List (α × α) → Option (List (α × α)))
    (coordinates : List (α × α)) (profile : String) :
    Option (List (α × α)) × Option (List (α × α)) × Bool :=
  if !hasOrsKey then (none, none, true)
  else if coordinates.length < 2 then (none, none, false)
  else
    let orsCoordinates := coordinates.map (fun coord => (coord.2, coord.1))
    match ors profile orsCoordinates with
    | some geometry =>
        if geometry.length = 0 then (none, some orsCoordinates, false)
        else
          (some (geometry.map (fun coord => (coord.2, coord.1))),
            some orsCoordinates, false)
    | none => (none, some orsCoordinates, false)

/-- The `for (const place of trip.suggested_places)` loop
(src/app/view-map/page.tsx lines 357-368): a resolved place contributes
its coordinate and a marker in itinerary order; a failed geocoding call
contributes a warning; an empty geocoding result is skipped silently. -/
def geocodePlaces (geo : String → GeoResult α) (destination : String) :
    List SuggestedPlace → List (α × α) × List (MapMarker α) × List String
  | [] => ([], [], [])
  | place :: rest =>
      let r := geocodePlaces geo destination rest
      match geocodeAddress geo (placeQuery place destination) with
      | (some coord, _) =>
          (coord :: r.1, ⟨coord, placePopup place⟩ :: r.2.1, r.2.2)
      | (none, ws) => (r.1, r.2.1, ws ++ r.2.2)

/-- The starting-point block (src/app/view-map/page.tsx lines 331-341):
geocoded only when the field is non-empty (JavaScript truthiness). -/
def geocodeStart (geo : String → GeoResult α) (startingPoint : String) :
    List (α × α) × List (MapMarker α) × List String :=
  if startingPoint ≠ "" then
    match geocodeAddress geo startingPoint with
    | (some coord, _) => ([coord], [⟨coord, startPopup startingPoint⟩], [])
    | (none, ws) => ([], [], ws)
  else ([], [], [])

/-- Result of a completed assembly run: the committed markers, the route
polyline (empty on any routing degradation), the accumulated map-error
warnings, and the coordinate payload sent to the routing service (`none`
when no routing call was made). -/
structure AssembleOutcome (α : Type) where
  markers : List (MapMarker α)
  route : List (α × α)
  warnings : List String
  routingRequest : Option (List (α × α))
deriving DecidableEq, Repr

/-- `addMarkersAndRoute` (src/app/view-map/page.tsx lines 322-396) as a
run over the geocoding and routing oracles.  The `Except.error` branch is
the early return at lines 351-355: the map-error text is set to the
destination message and `setMarkers` is never reached, so no markers are
produced.  On the success path the markers are committed, the map-center
guard runs (dead: the destination coordinate is always present), and the
routing call happens only with at least two resolved coordinates. -/
def addMarkersAndRoute (geo : String → GeoResult α)
    (ors : String → List (α × α) → Option (List (α × α)))
    (hasOrsKey : Bool) (trip : TripRecord) :
    Except String (AssembleOutcome α) :=
  let start := geocodeStart geo trip.starting_point
  match geocodeAddress geo trip.destination with
  | (some destCoord, _) =>
      let placesPart := geocodePlaces geo trip.destination trip.suggested_places
      let placeCoordinates := start.1 ++ destCoord :: placesPart.1
      let markers :=
        start.2.1 ++ ⟨destCoord, destPopup trip.destination⟩ :: placesPart.2.1
      let warnings := start.2.2 ++ placesPart.2.2
      if placeCoordinates.length = 0 then
        .ok ⟨markers, [], warnings ++ [noLocationsMessage], none⟩
      else if 2 ≤ placeCoordinates.length then
        let gd := getDirections hasOrsKey ors placeCoordinates
          (getOrsProfile trip.preferred_travel_mode)
        .ok ⟨markers, (gd.1).getD [],
          if gd.2.2 then [orsKeyMissingMessage] else warnings, gd.2.1⟩
      else .ok ⟨markers, [], warnings, none⟩
  | (none, _) => .error destinationFailMessage

/-! ### Statement-side characterizations of the geocoding loop -/

/-- The coordinate a geocoding outcome contributes, if any. -/
def foundCoord? : GeoResult α → Option (α × α)
  | .found c => some c
  | _ => none

/-- Markers the place loop produces: one per resolved place, in order. -/
def placeMarkersOf (geo : String → GeoResult α) (destination : String)
    (places : List SuggestedPlace) : List (MapMarker α) :=
  places.filterMap fun p =>
    (foundCoord? (geo (placeQuery p destination))).map
      fun c => ⟨c, placePopup p⟩

/-- Coordinates the place loop produces, in order. -/
def placeCoordsOf (geo : String → GeoResult α) (destination : String)
    (places : List SuggestedPlace) : List (α × α) :=
  places.filterMap fun p => foundCoord? (geo (placeQuery p destination))

/-- Warnings the place loop accumulates: one per place whose geocoding
call failed (not per place that merely had no match). -/
def placeWarningsOf (geo : String → GeoResult α) (destination : String)
    (places : List SuggestedPlace) : List String :=
  places.filterMap fun p =>
    match geo (placeQuery p destination) with
    | .failed _ => some (geoWarnMessage (placeQuery p destination))
    | _ => none

/-! ### Concrete oracles and records used by witnesses -/

/-- Concrete seven-place list for the day-bucketing witness. -/
def placesSeven : List Nat := [0, 1, 2, 3, 4, 5, 6]

/-- A well-formed response for the validation witness. -/
def validResponse : Option Json :=
  some (.arr [.obj [("name", .str "Eiffel Tower"),
    ("description", .str "Iconic landmark."),
    ("time_to_visit", .str "2-3 hours")]])

/-- Concrete two-place list for the update witness. -/
def placesTwo : List SuggestedPlace :=
  [⟨"Gateway", "Arch", none, none, none⟩,
   ⟨"Fort", "Old fort", none, none, none⟩]

/-- Concrete updated copy for the update witness. -/
def updatedPlaceW : SuggestedPlace := ⟨"Gateway", "Arch", none, some "sunset", none⟩

/-- First of the two duplicate places for the C10 witness. -/
def dupFirst : SuggestedPlace :=
  ⟨"Temple", "Ancient temple", none, some "first", some false⟩

/-- Second (displayed) duplicate place for the C10 witness. -/
def dupSecond : SuggestedPlace :=
  ⟨"Temple", "Ancient temple", none, some "second", none⟩

/-- Duplicate-bearing list for the C10 witness. -/
def dupPlaces : List SuggestedPlace := [dupFirst, dupSecond]

/-- Geocoder that finds nothing (destination-unresolved witness). -/
def geoNotFound : String → GeoResult Int := fun _ => .notFound

/-- Routing oracle that always fails. -/
def orsNone : String → List (Int × Int) → Option (List (Int × Int)) :=
  fun _ _ => none

/-- Routing oracle that echoes the request payload as the geometry. -/
def orsEcho : String → List (Int × Int) → Option (List (Int × Int)) :=
  fun _ coordinates => some coordinates

/-- Trip whose destination no geocoder resolves. -/
def tripAtlantis : TripRecord :=
  ⟨"Mumbai", "Atlantis", [⟨"Palace", "Lost palace", none, none, none⟩],
    some "car"⟩

/-- A place that resolves in the Paris scenario. -/
def louvrePlace : SuggestedPlace :=
  ⟨"Louvre Museum", "Art museum", none, none, none⟩

/-- A place that yields an empty geocoding result in the Paris scenario. -/
def lostPlace : SuggestedPlace :=
  ⟨"Lost Palace", "No such place", none, none, none⟩

/-- Geocoder for the Paris scenario: destination and the Louvre resolve,
everything else returns an empty result. -/
def geoParis : String → GeoResult Int := fun s =>
  if s = "Paris" then .found (48, 2)
  else if s = "Louvre Museum, Paris" then .found (49, 3)
  else .notFound

/-- Paris trip with one resolvable and one unresolvable place. -/
def tripParis : TripRecord := ⟨"", "Paris", [louvrePlace, lostPlace], some "car"⟩

/-- The assembly outcome of the Paris scenario under `orsEcho`. -/
def outParis : AssembleOutcome Int :=
  ⟨[⟨(48, 2), destPopup "Paris"⟩, ⟨(49, 3), placePopup louvrePlace⟩],
    [(48, 2), (49, 3)], [], some [(2, 48), (3, 49)]⟩

/-- A place that resolves in the Delhi scenario. -/
def redFort : SuggestedPlace := ⟨"Red Fort", "Mughal fort", none, none, none⟩

/-- A place whose geocoding call fails in the Delhi scenario. -/
def ghostTown : SuggestedPlace := ⟨"Ghost Town", "Nowhere", none, none, none⟩

/-- Geocoder for the Delhi scenario: destination and the Red Fort
resolve, everything else fails with an HTTP error. -/
def geoDelhi : String → GeoResult Int := fun s =>
  if s = "Delhi" then .found (28, 77)
  else if s = "Red Fort, Delhi" then .found (29, 78)
  else .failed "500"

/-! ## Theorems -/

/-! ### Day-bucketing lemmas -/

theorem fillLoop_length (places : List α) (perDay d idx : Nat) :
    (fillLoop places perDay d idx).length = d := by
  induction d generalizing idx with
  | zero => rfl
  | succ d ih => simp [fillLoop, ih]

theorem drop_min_length (l : List α) (idx : Nat) :
    l.drop (min idx l.length) = l.drop idx := by
  rcases Nat.le_total idx l.length with h | h
  · rw [Nat.min_eq_left h]
  · rw [Nat.min_eq_right h, List.drop_length, List.drop_eq_nil_of_le h]

theorem fillLoop_congr (places : List α) (perDay d : Nat) {a b : Nat}
    (h : min a places.length = min b places.length) :
    fillLoop places perDay d a = fillLoop places perDay d b := by
  induction d generalizing a b with
  | zero => rfl
  | succ d ih =>
      simp only [fillLoop]
      congr 1
      · rw [← drop_min_length places a, ← drop_min_length places b, h]
      · exact ih (by omega)

theorem fillLoop_succ_idx (places : List α) (perDay d idx : Nat) :
    fillLoop places perDay (d + 1) idx =
      (places.drop idx).take perDay ::
        fillLoop places perDay d (idx + perDay) := by
  simp only [fillLoop]
  congr 1
  exact fillLoop_congr places perDay d (by omega)

theorem fillLoop_flatten (places : List α) (perDay d idx : Nat) :
    (fillLoop places perDay d idx).flatten = (places.drop idx).take (d * perDay) := by
  induction d generalizing idx with
  | zero => simp [fillLoop]
  | succ d ih =>
      rw [fillLoop_succ_idx]
      simp only [List.flatten_cons, ih]
      rw [← List.drop_drop, ← List.take_add]
      congr 1
      ring_nf

theorem fillLoop_getD (places : List α) (perDay d idx : Nat) :
    ∀ i, i < d → (fillLoop places perDay d idx).getD i [] =
      (places.drop (idx + i * perDay)).take perDay := by
  induction d generalizing idx with
  | zero => intro i hi; omega
  | succ d ih =>
      intro i hi
      rw [fillLoop_succ_idx]
      match i with
      | 0 => simp
      | i + 1 =>
          simp only [List.getD_cons_succ]
          rw [ih (idx + perDay) i (by omega)]
          congr 1
          ring_nf

theorem flatten_replicate_nil (n : Nat) :
    (List.replicate n ([] : List α)).flatten = [] := by
  induction n with
  | zero => rfl
  | succ n ih => simp [List.replicate_succ, ih]

theorem getD_replicate_nil (n i : Nat) :
    (List.replicate n ([] : List α)).getD i [] = [] := by
  induction n generalizing i with
  | zero => cases i <;> rfl
  | succ n ih => cases i <;> simp [List.replicate_succ, ih]

theorem ceil_div_mul_ge {len d : Nat} (hd : 0 < d) (hlen : 0 < len) :
    len ≤ d * ((len + d - 1) / d) := by
  have h1 : len + d - 1 = (len - 1) + d := by omega
  rw [h1, Nat.add_div_right _ hd]
  have h2 := Nat.div_add_mod (len - 1) d
  have h3 : (len - 1) % d < d := Nat.mod_lt _ hd
  have h4 : d * ((len - 1) / d + 1) = d * ((len - 1) / d) + d := by ring
  omega

/-- C3: for every place list and every `days > 0`, `getPlacesByDay`
returns exactly `days` buckets; concatenating the buckets in order
reproduces the input list; bucket `i` holds the
`perDay = ceil (len / days)` places starting at position `i * perDay`
(greedy fill until the list is exhausted, trailing buckets empty); an
empty input gives `days` empty buckets; and 7 places over 3 days give
bucket sizes [3, 3, 1]. -/
theorem getPlacesByDay_spec (places : List α) (days : Nat) (hdays : 0 < days) :
    (getPlacesByDay places days).length = days
    ∧ (getPlacesByDay places days).flatten = places
    ∧ (∀ i, i < days → (getPlacesByDay places days).getD i [] =
        (places.drop (i * ((places.length + days - 1) / days))).take
          ((places.length + days - 1) / days))
    ∧ (places = [] → getPlacesByDay places days = List.replicate days [])
    ∧ (places.length = 7 → days = 3 →
        (getPlacesByDay places days).map List.length = [3, 3, 1]) := by
  refine ⟨?_, ?_, ?_, ?_, ?_⟩
  · by_cases h : places.length = 0 <;>
      simp [getPlacesByDay, h, fillLoop_length]
  · by_cases h : places.length = 0
    · have hnil : places = [] := List.length_eq_zero.mp h
      simp [getPlacesByDay, h, hnil, flatten_replicate_nil]
    · rw [getPlacesByDay, if_neg h, fillLoop_flatten, List.drop_zero]
      exact List.take_of_length_le
        (ceil_div_mul_ge hdays (Nat.pos_of_ne_zero h))
  · intro i hi
    by_cases h : places.length = 0
    · have hnil : places = [] := List.length_eq_zero.mp h
      simp [getPlacesByDay, h, hnil, getD_replicate_nil]
    · rw [getPlacesByDay, if_neg h, fillLoop_getD places _ days 0 i hi,
        Nat.zero_add]
  · intro h
    simp [getPlacesByDay, h]
  · intro h7 h3
    subst h3
    rw [getPlacesByDay, if_neg (by omega), h7]
    norm_num
    rw [fillLoop_succ_idx, fillLoop_succ_idx, fillLoop_succ_idx]
    simp [fillLoop, List.length_take, List.length_drop, h7]

theorem getPlacesByDay_spec_witness :
    (0 : Nat) < 3
    ∧ ((getPlacesByDay placesSeven 3).length = 3
      ∧ (getPlacesByDay placesSeven 3).flatten = placesSeven
      ∧ (∀ i, i < 3 → (getPlacesByDay placesSeven 3).getD i [] =
          (placesSeven.drop (i * ((placesSeven.length + 3 - 1) / 3))).take
            ((placesSeven.length + 3 - 1) / 3))
      ∧ (placesSeven = [] → getPlacesByDay placesSeven 3 = List.replicate 3 [])
      ∧ (placesSeven.length = 7 → 3 = 3 →
          (getPlacesByDay placesSeven 3).map List.length = [3, 3, 1])) :=
  ⟨by decide, getPlacesByDay_spec placesSeven 3 (by decide)⟩

/-- C8 (counterexample): the source allocator never fails; with
`days = -2` and a nonempty list the call returns an ordinary value (the
empty bucket list) instead of an `InvalidArgumentError`. -/
theorem bucket_nonpositive_days_counterexample :
    ¬ (∀ (places : List Nat) (days : Int), days ≤ 0 →
        ∃ msg, getPlacesByDayRun places days = Except.error msg) := by
  intro h
  obtain ⟨msg, hmsg⟩ := h [0] (-2) (by decide)
  simp [getPlacesByDayRun] at hmsg

/-- C8 (amended): calling the allocator with `days ≤ 0` is not rejected:
the call succeeds and returns zero buckets (the empty list), because
`Array.from` with a nonpositive length is empty and the fill loops never
run. -/
theorem bucket_nonpositive_days_returns_no_buckets (places : List α)
    (days : Int) (h : days ≤ 0) :
    getPlacesByDayRun places days = Except.ok [] := by
  have ht : days.toNat = 0 := Int.toNat_of_nonpos h
  by_cases hlen : places.length = 0 <;>
    simp [getPlacesByDayRun, getPlacesByDayInt, ht, getPlacesByDay, hlen, fillLoop]

theorem bucket_nonpositive_days_returns_no_buckets_witness :
    (-2 : Int) ≤ 0 ∧ getPlacesByDayRun ([0] : List Nat) (-2) = Except.ok [] :=
  ⟨by decide, bucket_nonpositive_days_returns_no_buckets [0] (-2) (by decide)⟩

/-! ### Suggestion-engine validation (C2) -/

theorem isPlaceItem_spec (j : Json) (h : isPlaceItem j = true) :
    ∃ n d t, j.getStr "name" = some n ∧ j.getStr "description" = some d
      ∧ j.getStr "time_to_visit" = some t ∧ extractPlace j = ⟨n, d, t⟩ := by
  simp only [isPlaceItem, Bool.and_eq_true, Option.isSome_iff_exists] at h
  obtain ⟨⟨⟨n, hn⟩, d, hd⟩, t, ht⟩ := h
  exact ⟨n, d, t, hn, hd, ht, by simp [extractPlace, hn, hd, ht]⟩

/-- C2 (counterexample): the validation checks only that the three fields
are present with string values, not that name or description is
non-empty; an element with an empty name passes and is returned. -/
theorem engine_nonempty_fields_counterexample :
    ¬ (∀ (r : Option Json) (l : List EnginePlace),
        validateSuggestions r = Except.ok l →
        ∀ p ∈ l, p.name ≠ "" ∧ p.description ≠ "") := by
  intro h
  have hval : validateSuggestions (some (.arr [.obj [("name", .str ""),
      ("description", .str "x"), ("time_to_visit", .str "1h")]]))
      = Except.ok [⟨"", "x", "1h"⟩] := by rfl
  have h2 := h _ _ hval ⟨"", "x", "1h"⟩ (by simp)
  exact h2.1 rfl

/-- C2 (amended): validation is all-or-nothing over the typed shape: a
call succeeds only on a parsed JSON array all of whose elements carry the
three string fields name, description and time_to_visit (possibly empty
strings), the returned list is the typed reading of exactly those
elements, and any other response fails with an error — no partially-typed
element is ever returned. -/
theorem engine_validation_all_or_nothing (r : Option Json)
    (l : List EnginePlace) (h : validateSuggestions r = Except.ok l) :
    ∃ items, r = some (.arr items) ∧ (∀ j ∈ items, isPlaceItem j = true)
      ∧ l = items.map extractPlace
      ∧ ∀ j ∈ items, ∃ n d t, j.getStr "name" = some n
          ∧ j.getStr "description" = some d
          ∧ j.getStr "time_to_visit" = some t ∧ extractPlace j = ⟨n, d, t⟩ := by
  match r with
  | none => simp [validateSuggestions] at h
  | some .null => simp [validateSuggestions] at h
  | some (.bool b) => simp [validateSuggestions] at h
  | some (.num n) => simp [validateSuggestions] at h
  | some (.str s) => simp [validateSuggestions] at h
  | some (.obj fields) => simp [validateSuggestions] at h
  | some (.arr items) =>
      simp only [validateSuggestions] at h
      by_cases hall : items.all isPlaceItem
      · rw [if_pos hall] at h
        have hl : l = items.map extractPlace := by
          cases h; rfl
        have hforall : ∀ j ∈ items, isPlaceItem j = true := by
          simpa [List.all_eq_true] using hall
        exact ⟨items, rfl, hforall, hl,
          fun j hj => isPlaceItem_spec j (hforall j hj)⟩
      · rw [if_neg hall] at h
        exact absurd h (by simp)

theorem engine_validation_all_or_nothing_witness :
    validateSuggestions validResponse
        = Except.ok [⟨"Eiffel Tower", "Iconic landmark.", "2-3 hours"⟩]
    ∧ ∃ items, validResponse = some (.arr items)
        ∧ (∀ j ∈ items, isPlaceItem j = true)
        ∧ [(⟨"Eiffel Tower", "Iconic landmark.", "2-3 hours"⟩ : EnginePlace)]
            = items.map extractPlace
        ∧ ∀ j ∈ items, ∃ n d t, j.getStr "name" = some n
            ∧ j.getStr "description" = some d
            ∧ j.getStr "time_to_visit" = some t ∧ extractPlace j = ⟨n, d, t⟩ :=
  ⟨by rfl, engine_validation_all_or_nothing validResponse _ (by rfl)⟩

/-! ### Refinement persistence and failure handling (C1, C4) -/

/-- C1 (counterexample): a stored place with notes and visited = true,
matched by (name, description) in the fresh refinement list, does not
keep them: the persisted entry written by `handleChatSubmit` has absent
notes and an absent visited flag. -/
theorem refinement_keeps_annotations_counterexample :
    ¬ (∀ (history : List ChatTurn) (stored : List SuggestedPlace)
        (chatInput : String) (fresh : List EnginePlace)
        (persistError : Option String),
        ∀ p ∈ (handleChatSubmit history stored chatInput
            (.ok fresh) persistError).2,
          ∀ q ∈ stored, p.name = q.name → p.description = q.description →
            p.notes = q.notes ∧ p.visited = q.visited) := by
  intro h
  have hmem : (⟨"Louvre Museum", "Art museum", some "2h", none, none⟩ :
      SuggestedPlace)
      ∈ (handleChatSubmit [] [⟨"Louvre Museum", "Art museum", some "2h",
            some "book tickets", some true⟩] "refine"
          (.ok [⟨"Louvre Museum", "Art museum", "2h"⟩]) none).2 := by
    simp [handleChatSubmit, persistRefinement, EnginePlace.toStored]
  have h2 := h [] _ "refine" _ none _ hmem
      ⟨"Louvre Museum", "Art museum", some "2h", some "book tickets", some true⟩
      (by simp) rfl rfl
  simpa using h2.2

/-- C1 (amended): a successful refinement persists the engine's fresh
list verbatim, in the fresh order; the stored notes and visited flags are
not carried over — every place in the persisted result has absent notes
and an absent visited flag (read back as "" / not visited by the trip
page), whatever the stored list contained. -/
theorem refinement_discards_annotations (history : List ChatTurn)
    (stored : List SuggestedPlace) (chatInput : String)
    (fresh : List EnginePlace) :
    ((handleChatSubmit history stored chatInput (.ok fresh) none).2).map
        SuggestedPlace.name = fresh.map EnginePlace.name
    ∧ ((handleChatSubmit history stored chatInput (.ok fresh) none).2).map
        SuggestedPlace.description = fresh.map EnginePlace.description
    ∧ ((handleChatSubmit history stored chatInput (.ok fresh) none).2).map
        SuggestedPlace.notes = List.replicate fresh.length none
    ∧ ((handleChatSubmit history stored chatInput (.ok fresh) none).2).map
        SuggestedPlace.visited = List.replicate fresh.length none := by
  refine ⟨?_, ?_, ?_, ?_⟩ <;>
    simp [handleChatSubmit, persistRefinement, EnginePlace.toStored,
      List.map_map, Function.comp_def, List.map_const']

/-- C4 (counterexample): after a failed refinement attempt the chat
history is not rolled back to the pre-attempt turns plus the user turn:
the catch block appends an assistant-role error turn as well. -/
theorem chat_failure_rollback_counterexample :
    ¬ (∀ (history : List ChatTurn) (stored : List SuggestedPlace)
        (chatInput err : String) (persistError : Option String),
        (handleChatSubmit history stored chatInput
            (.error err) persistError).1
          = history ++ [⟨"user", chatInput⟩]) := by
  intro h
  have h2 := h [] [] "add cafes" "boom" none
  simp [handleChatSubmit] at h2

/-- C4 (amended): when the suggestion-engine call (or the context fetch)
fails, no reconciliation and no persistence of the place list happens —
the stored list is unchanged — but the conversation history does not roll
back: it becomes the pre-attempt turns, then the user turn, then an
appended assistant-role error turn. -/
theorem chat_failure_no_persist_appends_error_turn (history : List ChatTurn)
    (stored : List SuggestedPlace) (chatInput err : String)
    (persistError : Option String) :
    handleChatSubmit history stored chatInput (.error err) persistError
      = (history ++ [⟨"user", chatInput⟩, ⟨"model", chatErrorMessage err⟩],
          stored) := by
  simp [handleChatSubmit]

/-! ### Per-place update (C9) and duplicate handling (C10) -/

/-- C9 (counterexample): an out-of-range index does not fail: index 3 on
a one-element list succeeds and writes an array extended with nulls. -/
theorem update_place_out_of_range_counterexample :
    ¬ (∀ (places : List SuggestedPlace) (p : SuggestedPlace) (i : Int),
        (0 ≤ i → i.toNat < places.length →
          updatePlaceInSupabase places p i = (places.set i.toNat p).map some)
        ∧ ((i < 0 ∨ (places.length : Int) ≤ i) →
          ∃ msg, updatePlaceRun places p i = Except.error msg)) := by
  intro h
  obtain ⟨msg, hmsg⟩ := (h [⟨"A", "a", none, none, none⟩]
      ⟨"B", "b", none, none, none⟩ 3).2 (by right; decide)
  simp [updatePlaceRun] at hmsg

/-- C9 (amended): an in-range update replaces exactly the indexed element
(every other position unchanged); an index at or past the end does not
fail — the stored array is extended with nulls and the update is
appended; a negative index leaves the stored list unchanged. -/
theorem update_place_spec (places : List SuggestedPlace)
    (p : SuggestedPlace) (i : Int) :
    (0 ≤ i → i.toNat < places.length →
      updatePlaceInSupabase places p i = (places.set i.toNat p).map some
      ∧ (updatePlaceInSupabase places p i)[i.toNat]? = some (some p)
      ∧ ∀ j, j ≠ i.toNat →
          (updatePlaceInSupabase places p i)[j]? = (places.map some)[j]?)
    ∧ ((places.length : Int) ≤ i →
      updatePlaceInSupabase places p i
        = places.map some ++ List.replicate (i.toNat - places.length) none
            ++ [some p])
    ∧ (i < 0 → updatePlaceInSupabase places p i = places.map some) := by
  refine ⟨fun h0 hlt => ?_, fun hge => ?_, fun hneg => ?_⟩
  · have heq : updatePlaceInSupabase places p i
        = (places.set i.toNat p).map some := by
      rw [updatePlaceInSupabase, if_neg (by omega), jsArrayWrite,
        if_pos hlt, List.map_set]
    refine ⟨heq, ?_, fun j hj => ?_⟩
    · rw [heq, List.map_set, List.getElem?_set, if_pos rfl,
        List.length_map, if_pos hlt]
    · rw [heq, List.map_set, List.getElem?_set, if_neg (by omega)]
  · have hnotlt : ¬ i.toNat < places.length := by omega
    rw [updatePlaceInSupabase, if_neg (by omega), jsArrayWrite, if_neg hnotlt]
  · rw [updatePlaceInSupabase, if_pos hneg]

theorem update_place_spec_witness :
    ((0 : Int) ≤ 1 ∧ (1 : Int).toNat < placesTwo.length
      ∧ updatePlaceInSupabase placesTwo updatedPlaceW 1
          = (placesTwo.set (1 : Int).toNat updatedPlaceW).map some)
    ∧ ((placesTwo.length : Int) ≤ 5
      ∧ updatePlaceInSupabase placesTwo updatedPlaceW 5
          = placesTwo.map some
              ++ List.replicate ((5 : Int).toNat - placesTwo.length) none
              ++ [some updatedPlaceW])
    ∧ ((-1 : Int) < 0
      ∧ updatePlaceInSupabase placesTwo updatedPlaceW (-1)
          = placesTwo.map some) :=
  ⟨⟨by decide, by decide,
      ((update_place_spec placesTwo updatedPlaceW 1).1 (by decide) (by decide)).1⟩,
    ⟨by decide, (update_place_spec placesTwo updatedPlaceW 5).2.1 (by decide)⟩,
    ⟨by decide, (update_place_spec placesTwo updatedPlaceW (-1)).2.2 (by decide)⟩⟩

theorem findIdx?_from_eq_some_of_first (p : α → Bool) (l : List α)
    (i s : Nat) (a : α) (ha : l[i]? = some a) (hp : p a = true)
    (hfirst : ∀ k c, k < i → l[k]? = some c → p c = false) :
    l.findIdx? p s = some (s + i) := by
  induction l generalizing i s with
  | nil => simp at ha
  | cons x xs ih =>
      cases i with
      | zero =>
          simp only [List.getElem?_cons_zero, Option.some.injEq] at ha
          subst ha
          simp [List.findIdx?_cons, hp]
      | succ i =>
          have hx : p x = false := hfirst 0 x (by omega) (by simp)
          rw [List.findIdx?_cons, if_neg (by simp [hx])]
          have hr := ih i (s + 1) (by simpa using ha)
            (fun k c hk hkc => hfirst (k + 1) c (by omega) (by simpa using hkc))
          rw [hr]
          congr 1
          omega

/-- C10 (confirmed): the trip-detail view recomputes the index of a
displayed place as the first position whose (name, description) matches;
with duplicates at positions `i < j` (and no earlier match), annotating
the displayed place at position `j` — a visited toggle or a note save —
always mutates position `i` and leaves the entry at position `j`
untouched. -/
theorem duplicate_annotation_hits_first_occurrence
    (places : List SuggestedPlace) (i j : Nat) (a b : SuggestedPlace)
    (hij : i < j) (ha : places[i]? = some a) (hb : places[j]? = some b)
    (hname : a.name = b.name) (hdesc : a.description = b.description)
    (hfirst : ∀ k c, k < i → places[k]? = some c →
      c.name ≠ b.name ∨ c.description ≠ b.description) :
    findOriginalIndex places b = (i : Int)
    ∧ toggleDisplayedPlace places b
        = (places.set i
            { a with visited := some (!(a.visited.getD false)) }).map some
    ∧ (toggleDisplayedPlace places b)[j]? = some (some b)
    ∧ ∀ note, saveNoteDisplayedPlace places b note
          = (places.set i { a with notes := some note }).map some
        ∧ (saveNoteDisplayedPlace places b note)[j]? = some (some b) := by
  obtain ⟨hilt, hai⟩ := List.getElem?_eq_some_iff.mp ha
  have hpred : (fun p => p.name == b.name && p.description == b.description) a
      = true := by
    simp [hname, hdesc]
  have hfirst' : ∀ k c, k < i → places[k]? = some c →
      (fun p => p.name == b.name && p.description == b.description) c
        = false := by
    intro k c hk hkc
    rcases hfirst k c hk hkc with h | h <;> simp [h]
  have hfind : places.findIdx?
      (fun p => p.name == b.name && p.description == b.description)
      = some i := by
    have hr := findIdx?_from_eq_some_of_first _ places i 0 a ha hpred hfirst'
    simpa using hr
  have hidx : findOriginalIndex places b = (i : Int) := by
    rw [findOriginalIndex, hfind]
  have htoNat : ((i : Int)).toNat = i := rfl
  have hinb : updatePlaceInSupabase places
      { a with visited := some (!(a.visited.getD false)) } (i : Int)
      = (places.set i
          { a with visited := some (!(a.visited.getD false)) }).map some := by
    rw [updatePlaceInSupabase, if_neg (by omega), jsArrayWrite, htoNat,
      if_pos hilt, List.map_set]
  have hinb2 : ∀ note, updatePlaceInSupabase places
      { a with notes := some note } (i : Int)
      = (places.set i { a with notes := some note }).map some := by
    intro note
    rw [updatePlaceInSupabase, if_neg (by omega), jsArrayWrite, htoNat,
      if_pos hilt, List.map_set]
  have htog : toggleDisplayedPlace places b
      = (places.set i
          { a with visited := some (!(a.visited.getD false)) }).map some := by
    rw [toggleDisplayedPlace]
    simp only [hidx]
    rw [if_neg (by omega), htoNat, ha]
    exact hinb
  have hsave : ∀ note, saveNoteDisplayedPlace places b note
      = (places.set i { a with notes := some note }).map some := by
    intro note
    rw [saveNoteDisplayedPlace]
    simp only [hidx]
    rw [if_neg (by omega), htoNat, ha]
    exact hinb2 note
  refine ⟨hidx, htog, ?_, fun note => ⟨hsave note, ?_⟩⟩
  · rw [htog, List.map_set, List.getElem?_set, if_neg (by omega),
      List.getElem?_map, hb]
    rfl
  · rw [hsave note, List.map_set, List.getElem?_set, if_neg (by omega),
      List.getElem?_map, hb]
    rfl

theorem duplicate_annotation_hits_first_occurrence_witness :
    findOriginalIndex dupPlaces dupSecond = (0 : Int)
    ∧ toggleDisplayedPlace dupPlaces dupSecond
        = (dupPlaces.set 0
            { dupFirst with
                visited := some (!(dupFirst.visited.getD false)) }).map some
    ∧ (toggleDisplayedPlace dupPlaces dupSecond)[1]? = some (some dupSecond)
    ∧ ∀ note, saveNoteDisplayedPlace dupPlaces dupSecond note
          = (dupPlaces.set 0 { dupFirst with notes := some note }).map some
        ∧ (saveNoteDisplayedPlace dupPlaces dupSecond note)[1]?
            = some (some dupSecond) :=
  duplicate_annotation_hits_first_occurrence dupPlaces 0 1 dupFirst dupSecond
    (by decide) (by decide) (by decide) rfl rfl
    (fun k c hk hkc => absurd hk (by omega))

/-! ### Map assembler lemmas -/

theorem geocodePlaces_eq (geo : String → GeoResult α) (destination : String)
    (places : List SuggestedPlace) :
    geocodePlaces geo destination places
      = (placeCoordsOf geo destination places,
          placeMarkersOf geo destination places,
          placeWarningsOf geo destination places) := by
  induction places with
  | nil => rfl
  | cons p rest ih =>
      cases hg : geo (placeQuery p destination) <;>
        simp [geocodePlaces, ih, geocodeAddress, hg, placeCoordsOf,
          placeMarkersOf, placeWarningsOf, foundCoord?, List.filterMap_cons]

theorem foundCoord?_found (c : α × α) :
    foundCoord? (GeoResult.found c) = some c := rfl

theorem foundCoord?_notFound :
    foundCoord? (GeoResult.notFound : GeoResult α) = none := rfl

theorem foundCoord?_failed (m : String) :
    foundCoord? (GeoResult.failed m : GeoResult α) = none := rfl

theorem placeMarkersOf_positions (geo : String → GeoResult α)
    (destination : String) (places : List SuggestedPlace) :
    (placeMarkersOf geo destination places).map MapMarker.position
      = placeCoordsOf geo destination places := by
  induction places with
  | nil => rfl
  | cons p rest ih =>
      simp only [placeMarkersOf, placeCoordsOf] at ih ⊢
      rw [List.filterMap_cons, List.filterMap_cons]
      cases hg : geo (placeQuery p destination) <;>
        simp [hg, foundCoord?_found, foundCoord?_notFound,
          foundCoord?_failed, ih]

theorem geocodeStart_positions (geo : String → GeoResult α) (s : String) :
    ((geocodeStart geo s).2.1).map MapMarker.position
      = (geocodeStart geo s).1 := by
  rw [geocodeStart]
  by_cases hs : s = ""
  · simp [hs]
  · cases hg : geo s <;> simp [hs, geocodeAddress, hg]

theorem placeWarningsOf_all_found (geo : String → GeoResult α)
    (destination : String) (places : List SuggestedPlace)
    (h : ∀ q ∈ places, ∃ c, geo (placeQuery q destination) = .found c) :
    placeWarningsOf geo destination places = [] := by
  rw [placeWarningsOf, List.filterMap_eq_nil_iff]
  intro q hq
  obtain ⟨c, hc⟩ := h q hq
  simp [hc]

theorem placeMarkersOf_all_found_length (geo : String → GeoResult α)
    (destination : String) (places : List SuggestedPlace)
    (h : ∀ q ∈ places, ∃ c, geo (placeQuery q destination) = .found c) :
    (placeMarkersOf geo destination places).length = places.length := by
  induction places with
  | nil => rfl
  | cons q rest ih =>
      obtain ⟨c, hc⟩ := h q (List.mem_cons_self q rest)
      have hr := ih (fun r hmem => h r (List.mem_cons_of_mem q hmem))
      simp only [placeMarkersOf] at hr ⊢
      rw [List.filterMap_cons, hc]
      simp [foundCoord?_found, hr]

theorem getDirections_key_flag
    (ors : String → List (α × α) → Option (List (α × α)))
    (coordinates : List (α × α)) (profile : String) :
    (getDirections true ors coordinates profile).2.2 = false := by
  rw [getDirections]
  by_cases h : coordinates.length < 2
  · simp [h]
  · simp only [Bool.not_true, Bool.false_eq_true, if_false, if_neg h]
    cases ors profile (coordinates.map fun coord => (coord.2, coord.1)) with
    | none => rfl
    | some geometry => by_cases hg : geometry.length = 0 <;> simp [hg]

theorem addMarkersAndRoute_dest_found (geo : String → GeoResult α)
    (ors : String → List (α × α) → Option (List (α × α)))
    (trip : TripRecord) (cdest : α × α)
    (hdest : geo trip.destination = .found cdest) :
    ∃ out, addMarkersAndRoute geo ors true trip = .ok out
      ∧ out.markers = (geocodeStart geo trip.starting_point).2.1
          ++ ⟨cdest, destPopup trip.destination⟩
            :: placeMarkersOf geo trip.destination trip.suggested_places
      ∧ out.warnings = (geocodeStart geo trip.starting_point).2.2
          ++ placeWarningsOf geo trip.destination trip.suggested_places := by
  rw [addMarkersAndRoute]
  simp only [geocodeAddress, hdest, geocodePlaces_eq]
  have hlen0 : ¬ ((geocodeStart geo trip.starting_point).1
      ++ cdest :: placeCoordsOf geo trip.destination
          trip.suggested_places).length = 0 := by
    simp
  rw [if_neg hlen0]
  by_cases h2 : 2 ≤ ((geocodeStart geo trip.starting_point).1
      ++ cdest :: placeCoordsOf geo trip.destination
          trip.suggested_places).length
  · rw [if_pos h2]
    refine ⟨_, rfl, rfl, ?_⟩
    rw [getDirections_key_flag]
    simp
  · rw [if_neg h2]
    exact ⟨_, rfl, rfl, rfl⟩

/-! ### Map assembler claims (C5, C6, C7) -/

/-- C5 (confirmed): when the destination does not geocode (no match or a
failed call), the whole assembly fails with the fatal destination
message, and the error result carries no markers — `setMarkers` is never
reached — regardless of whether the starting point or any suggested
place resolved. -/
theorem assemble_destination_unresolved (geo : String → GeoResult α)
    (ors : String → List (α × α) → Option (List (α × α)))
    (hasOrsKey : Bool) (trip : TripRecord)
    (h : ∀ c, geo trip.destination ≠ .found c) :
    addMarkersAndRoute geo ors hasOrsKey trip
      = .error destinationFailMessage := by
  rw [addMarkersAndRoute]
  cases hg : geo trip.destination with
  | found c => exact absurd hg (h c)
  | notFound => simp [geocodeAddress, hg]
  | failed m => simp [geocodeAddress, hg]

theorem assemble_destination_unresolved_witness :
    (∀ c, geoNotFound "Atlantis" ≠ GeoResult.found c)
    ∧ addMarkersAndRoute geoNotFound orsNone true tripAtlantis
        = Except.error destinationFailMessage :=
  ⟨fun c h => by simp [geoNotFound] at h,
    assemble_destination_unresolved geoNotFound orsNone true tripAtlantis
      (fun c h => by simp [geoNotFound] at h)⟩

theorem placeMarkersOf_append (geo : String → GeoResult α)
    (destination : String) (l1 l2 : List SuggestedPlace) :
    placeMarkersOf geo destination (l1 ++ l2)
      = placeMarkersOf geo destination l1
        ++ placeMarkersOf geo destination l2 := by
  simp [placeMarkersOf, List.filterMap_append]

theorem placeWarningsOf_append (geo : String → GeoResult α)
    (destination : String) (l1 l2 : List SuggestedPlace) :
    placeWarningsOf geo destination (l1 ++ l2)
      = placeWarningsOf geo destination l1
        ++ placeWarningsOf geo destination l2 := by
  simp [placeWarningsOf, List.filterMap_append]

theorem placeMarkersOf_cons_none (geo : String → GeoResult α)
    (destination : String) (p : SuggestedPlace) (rest : List SuggestedPlace)
    (hp : foundCoord? (geo (placeQuery p destination)) = none) :
    placeMarkersOf geo destination (p :: rest)
      = placeMarkersOf geo destination rest := by
  simp [placeMarkersOf, List.filterMap_cons, hp]

theorem placeWarningsOf_cons (geo : String → GeoResult α)
    (destination : String) (p : SuggestedPlace) (rest : List SuggestedPlace) :
    placeWarningsOf geo destination (p :: rest)
      = (match geo (placeQuery p destination) with
         | .failed e => [geoWarnMessage (placeQuery p destination)]
         | _ => []) ++ placeWarningsOf geo destination rest := by
  cases hg : geo (placeQuery p destination) <;>
    simp [placeWarningsOf, List.filterMap_cons, hg]

/-- C6 (counterexample): in the Paris run the destination resolves and
exactly one place ("Lost Palace") fails to geocode — via an empty
geocoding result.  The run completes with the marker list missing only
that place, but NO warning is accumulated in the map-error text, against
the claim that a warning for that place is accumulated: the miss is only
logged to the console. -/
theorem assemble_place_warning_counterexample :
    addMarkersAndRoute geoParis orsNone true tripParis
      = Except.ok ⟨[⟨(48, 2), destPopup "Paris"⟩,
          ⟨(49, 3), placePopup louvrePlace⟩],
          [], [], some [(2, 48), (3, 49)]⟩ := by
  rfl

/-- C6 (amended): with a resolvable destination and a single place that
fails to geocode (all others resolving), the run completes successfully
and the marker list misses exactly that place's marker; a human-readable
warning is accumulated in the map-error text exactly when the geocoding
call itself failed (non-2xx or thrown) — an empty geocoding result is
skipped silently with no warning.  (Stated with the ORS key configured,
so the routing step leaves the accumulated warnings untouched.) -/
theorem assemble_one_place_unresolved (geo : String → GeoResult α)
    (ors : String → List (α × α) → Option (List (α × α)))
    (startingPoint destination : String) (mode : Option String)
    (pre post : List SuggestedPlace) (p : SuggestedPlace) (cdest : α × α)
    (hdest : geo destination = .found cdest)
    (hpre : ∀ q ∈ pre, ∃ c, geo (placeQuery q destination) = .found c)
    (hpost : ∀ q ∈ post, ∃ c, geo (placeQuery q destination) = .found c)
    (hp : foundCoord? (geo (placeQuery p destination)) = none) :
    (addMarkersAndRoute geo ors true
        ⟨startingPoint, destination, pre ++ p :: post, mode⟩).map
        AssembleOutcome.markers
      = Except.ok ((geocodeStart geo startingPoint).2.1
          ++ ⟨cdest, destPopup destination⟩
            :: placeMarkersOf geo destination (pre ++ post))
    ∧ (addMarkersAndRoute geo ors true
        ⟨startingPoint, destination, pre ++ p :: post, mode⟩).map
        (fun out => out.markers.length)
      = Except.ok ((geocodeStart geo startingPoint).2.1.length
          + 1 + (pre.length + post.length))
    ∧ (addMarkersAndRoute geo ors true
        ⟨startingPoint, destination, pre ++ p :: post, mode⟩).map
        AssembleOutcome.warnings
      = Except.ok ((geocodeStart geo startingPoint).2.2
          ++ match geo (placeQuery p destination) with
             | .failed e => [geoWarnMessage (placeQuery p destination)]
             | _ => []) := by
  obtain ⟨out, hok, hm, hw⟩ := addMarkersAndRoute_dest_found geo ors
    ⟨startingPoint, destination, pre ++ p :: post, mode⟩ cdest hdest
  have hm' : out.markers = (geocodeStart geo startingPoint).2.1
      ++ ⟨cdest, destPopup destination⟩
        :: placeMarkersOf geo destination (pre ++ post) := by
    rw [hm]
    dsimp only
    rw [placeMarkersOf_append, placeMarkersOf_cons_none geo destination p post hp,
      ← placeMarkersOf_append]
  have hw' : out.warnings = (geocodeStart geo startingPoint).2.2
      ++ match geo (placeQuery p destination) with
         | .failed e => [geoWarnMessage (placeQuery p destination)]
         | _ => [] := by
    rw [hw]
    dsimp only
    rw [placeWarningsOf_append, placeWarningsOf_cons,
      placeWarningsOf_all_found geo destination pre hpre,
      placeWarningsOf_all_found geo destination post hpost,
      List.nil_append, List.append_nil]
  have hlen : out.markers.length
      = (geocodeStart geo startingPoint).2.1.length
          + 1 + (pre.length + post.length) := by
    rw [hm', placeMarkersOf_append,
      List.length_append, List.length_cons, List.length_append,
      placeMarkersOf_all_found_length geo destination pre hpre,
      placeMarkersOf_all_found_length geo destination post hpost]
    omega
  rw [hok]
  exact ⟨by simp [Except.map, hm'], by simp [Except.map, hlen],
    by simp [Except.map, hw']⟩

theorem assemble_one_place_unresolved_witness :
    geoDelhi "Delhi" = GeoResult.found (28, 77)
    ∧ ((addMarkersAndRoute geoDelhi orsNone true
          ⟨"", "Delhi", [redFort] ++ ghostTown :: [], some "walk"⟩).map
          AssembleOutcome.markers
        = Except.ok ((geocodeStart geoDelhi "").2.1
            ++ ⟨(28, 77), destPopup "Delhi"⟩
              :: placeMarkersOf geoDelhi "Delhi" ([redFort] ++ []))
      ∧ (addMarkersAndRoute geoDelhi orsNone true
          ⟨"", "Delhi", [redFort] ++ ghostTown :: [], some "walk"⟩).map
          (fun out => out.markers.length)
        = Except.ok ((geocodeStart geoDelhi "").2.1.length
            + 1 + ([redFort].length + ([] : List SuggestedPlace).length))
      ∧ (addMarkersAndRoute geoDelhi orsNone true
          ⟨"", "Delhi", [redFort] ++ ghostTown :: [], some "walk"⟩).map
          AssembleOutcome.warnings
        = Except.ok ((geocodeStart geoDelhi "").2.2
            ++ match geoDelhi (placeQuery ghostTown "Delhi") with
               | .failed e => [geoWarnMessage (placeQuery ghostTown "Delhi")]
               | _ => [])) :=
  ⟨rfl, assemble_one_place_unresolved geoDelhi orsNone "" "Delhi" (some "walk")
    [redFort] [] ghostTown (28, 77) rfl
    (fun q hq => by
      rw [List.mem_singleton] at hq
      subst hq
      exact ⟨(29, 78), rfl⟩)
    (fun q hq => absurd hq (List.not_mem_nil q))
    rfl⟩

theorem getDirections_route_request
    (ors : String → List (α × α) → Option (List (α × α)))
    (L : List (α × α)) (profile : String) (h2 : 2 ≤ L.length) :
    getDirections true ors L profile
      = ((match ors profile (L.map fun coord => (coord.2, coord.1)) with
          | some geometry =>
              if geometry.length = 0 then none
              else some (geometry.map fun coord => (coord.2, coord.1))
          | none => none),
         some (L.map fun coord => (coord.2, coord.1)), false) := by
  rw [getDirections, if_neg (by simp), if_neg (by omega)]
  cases horr : ors profile (L.map fun coord => (coord.2, coord.1)) with
  | none => simp [horr]
  | some geometry =>
      by_cases hgz : geometry.length = 0 <;> simp [horr, hgz]

/-- C7 (confirmed): whenever a routing call is made, the coordinate list
sent to the routing service is exactly the marker list's positions in
marker insertion order (starting point if resolved, then destination,
then the suggested places in itinerary order), with each
(latitude, longitude) pair swapped to (longitude, latitude) at the
call boundary only; the returned geometry is swapped back, so the
polyline — like every other coordinate in the run — is in
(latitude, longitude) order. -/
theorem routing_request_spec (geo : String → GeoResult α)
    (ors : String → List (α × α) → Option (List (α × α)))
    (trip : TripRecord) (out : AssembleOutcome α) (req : List (α × α))
    (hok : addMarkersAndRoute geo ors true trip = .ok out)
    (hreq : out.routingRequest = some req) :
    req = out.markers.map (fun m => (m.position.2, m.position.1))
    ∧ out.route
        = (match ors (getOrsProfile trip.preferred_travel_mode) req with
           | some geometry =>
               if geometry.length = 0 then []
               else geometry.map fun coord => (coord.2, coord.1)
           | none => []) := by
  rw [addMarkersAndRoute] at hok
  cases hg : geo trip.destination with
  | notFound => simp [geocodeAddress, hg] at hok
  | failed m => simp [geocodeAddress, hg] at hok
  | found cdest =>
      simp only [geocodeAddress, hg, geocodePlaces_eq] at hok
      rw [if_neg (by simp)] at hok
      by_cases h2 : 2 ≤ ((geocodeStart geo trip.starting_point).1
          ++ cdest :: placeCoordsOf geo trip.destination
              trip.suggested_places).length
      · rw [if_pos h2, getDirections_route_request ors _ _ h2] at hok
        injection hok with hok'
        subst hok'
        simp only at hreq
        have hpos : ((geocodeStart geo trip.starting_point).2.1
            ++ (⟨cdest, destPopup trip.destination⟩ : MapMarker α)
              :: placeMarkersOf geo trip.destination
                  trip.suggested_places).map MapMarker.position
            = (geocodeStart geo trip.starting_point).1
              ++ cdest :: placeCoordsOf geo trip.destination
                  trip.suggested_places := by
          rw [List.map_append, geocodeStart_positions, List.map_cons,
            placeMarkersOf_positions]
        have hreq' : ((geocodeStart geo trip.starting_point).1
            ++ cdest :: placeCoordsOf geo trip.destination
                trip.suggested_places).map (fun coord => (coord.2, coord.1))
            = req := Option.some.inj hreq
        constructor
        · rw [← hreq', ← hpos, List.map_map]
          rfl
        · simp only [← hreq']
          cases horr : ors (getOrsProfile trip.preferred_travel_mode)
              (((geocodeStart geo trip.starting_point).1
                ++ cdest :: placeCoordsOf geo trip.destination
                    trip.suggested_places).map
                fun coord => (coord.2, coord.1)) with
          | none => simp [horr]
          | some geometry =>
              by_cases hgz : geometry.length = 0 <;> simp [horr, hgz]
      · rw [if_neg h2] at hok
        injection hok with hok'
        subst hok'
        simp at hreq

theorem routing_request_spec_witness :
    addMarkersAndRoute geoParis orsEcho true tripParis = Except.ok outParis
    ∧ outParis.routingRequest = some [(2, 48), (3, 49)]
    ∧ ([(2, 48), (3, 49)]
          = outParis.markers.map (fun m => (m.position.2, m.position.1))
      ∧ outParis.route
          = (match orsEcho (getOrsProfile tripParis.preferred_travel_mode)
                [(2, 48), (3, 49)] with
             | some geometry =>
                 if geometry.length = 0 then []
                 else geometry.map fun coord => (coord.2, coord.1)
             | none => [])) :=
  ⟨rfl, rfl,
    routing_request_spec geoParis orsEcho tripParis outParis
      [(2, 48), (3, 49)] rfl rfl⟩

end TouristGuide
